import Mathlib

/-!
Verification of the JsonAnalysis structural analyzer.

A shallow embedding of `src/jsonanalyzer/analyzer.py` and
`src/jsonanalyzer/report.py`.  Parsed JSON data is modelled by the
inductive type `JsonValue`; objects are ordered lists of key/value
entries (the spec's "ordered mapping", which is what the analyzer's
duplicate-key detection iterates over), and the extra constructor
`unknown` stands for a Python value outside the standard JSON value
space.  Python's bounded recursion is modelled by a fuel parameter:
`analyze_recursive` returns `Except`, failing when the recursion
budget is exhausted, which is the one exception the walk can raise.
Structure summaries are modelled as the Python dicts they are in the
source, i.e. as `JsonValue` objects.
-/

inductive JsonValue where
  | str (s : String)
  | num (n : Int)
  | bool (b : Bool)
  | null
  | obj (entries : List (String × JsonValue))
  | arr (elems : List JsonValue)
  | unknown
deriving Repr

/-- Python dict lookup `d[key]` (as `d.get(key)`): the value of the
first entry with the given key, if any. -/
def lookupEntries : List (String × JsonValue) → String → Option JsonValue
  | [], _ => none
  | (k, v) :: rest, key => if k = key then some v else lookupEntries rest key

mutual
/-- Deep equality on JSON values modelling Python's `==` on parsed
data: strings, numbers, booleans and nulls compare by value, arrays
compare element by element in order, and dictionaries compare as
unordered key-value maps — same size and every key of the first
mapping to an equal value in the second — which is Python's dict
equality (key order is ignored) on the unique-keyed dicts the
analyzer ever compares (structure summaries). -/
def beqV : JsonValue → JsonValue → Bool
  | .str a, .str b => a == b
  | .num a, .num b => a == b
  | .bool a, .bool b => a == b
  | .null, .null => true
  | .obj a, .obj b => a.length == b.length && beqDictEntries a b
  | .arr a, .arr b => beqElems a b
  | .unknown, .unknown => true
  | _, _ => false

/-- `all(k in b and a[k] == b[k] for k in a)` of Python dict equality. -/
def beqDictEntries : List (String × JsonValue) → List (String × JsonValue) → Bool
  | [], _ => true
  | (k, v) :: rest, b =>
    (match lookupEntries b k with
     | some w => beqV v w
     | none => false) && beqDictEntries rest b

def beqElems : List JsonValue → List JsonValue → Bool
  | [], [] => true
  | v1 :: r1, v2 :: r2 => beqV v1 v2 && beqElems r1 r2
  | _, _ => false
end

/-- Sanity check of the deep-equality model: Python's dict `==`
ignores key order, so reordering an object's keys does not break
equality, while arrays stay order-sensitive. -/
theorem beqV_ignores_key_order :
    beqV (.obj [("a", .num 1), ("b", .num 2)]) (.obj [("b", .num 2), ("a", .num 1)]) = true
    ∧ beqV (.obj [("a", .num 1)]) (.obj [("a", .num 2)]) = false
    ∧ beqV (.obj [("a", .num 1)]) (.obj [("a", .num 1), ("b", .num 2)]) = false
    ∧ beqV (.arr [.num 1, .num 2]) (.arr [.num 2, .num 1]) = false :=
  ⟨rfl, rfl, rfl, rfl⟩

/-! ### Lexicographic string order, Python's `<` on strings (by code point) -/

def listCharLtB : List Char → List Char → Bool
  | [], [] => false
  | [], _ :: _ => true
  | _ :: _, [] => false
  | c :: cs, d :: ds =>
    if c.toNat < d.toNat then true
    else if d.toNat < c.toNat then false
    else listCharLtB cs ds

def strLtB (a b : String) : Bool := listCharLtB a.data b.data

def strLeB (a b : String) : Bool := !(strLtB b a)

/-- `sorted` on a list of strings (Python's `sorted`, code-point lexicographic). -/
def sortStrings (l : List String) : List String :=
  List.insertionSort (fun a b => strLeB a b = true) l

/-! ### The value classifier, `_get_value_type` in `analyzer.py`.

Python's `isinstance` checks are reproduced one for one; in particular
`isinstance(value, (int, float))` is true of booleans as well, because
Python's `bool` is a subtype of `int`. -/

def isinstance_str : JsonValue → Bool
  | .str _ => true
  | _ => false

def isinstance_bool : JsonValue → Bool
  | .bool _ => true
  | _ => false

def isinstance_int_float : JsonValue → Bool
  | .num _ => true
  | .bool _ => true
  | _ => false

def isinstance_dict : JsonValue → Bool
  | .obj _ => true
  | _ => false

def isinstance_list : JsonValue → Bool
  | .arr _ => true
  | _ => false

def is_none_value : JsonValue → Bool
  | .null => true
  | _ => false

/-- `_get_value_type`: the chain of `isinstance` tests, in source order. -/
def get_value_type (value : JsonValue) : String :=
  if isinstance_str value then "string"
  else if isinstance_bool value then "boolean"
  else if isinstance_int_float value then "number"
  else if isinstance_dict value then "object"
  else if isinstance_list value then "array"
  else if is_none_value value then "null"
  else "unknown"

/-! ### Data model of the analysis result, `models.py` -/

structure TypeStatistics where
  strings : Nat
  numbers : Nat
  booleans : Nat
  nulls : Nat
  objects : Nat
  arrays : Nat
  total_values : Nat
deriving DecidableEq, Repr

structure DuplicateKeyInfo where
  path : String
  key : String
deriving DecidableEq, Repr

/-- The three mutable accumulators threaded through `_analyze_recursive`:
the statistics counters, the duplicates list and the max-depth tracker. -/
structure WalkState where
  stats : TypeStatistics
  duplicates : List DuplicateKeyInfo
  maxDepth : Nat
deriving DecidableEq, Repr

/-- Sum of the six named type counters (all except `total_values`). -/
def sumSix (s : TypeStatistics) : Nat :=
  s.strings + s.numbers + s.booleans + s.nulls + s.objects + s.arrays

/-! ### Dictionary helpers (Python dict assignment and lookup) -/

/-- Python dict assignment `m[key] = v`: an existing key keeps its
position and gets the new value, a new key is appended at the end. -/
def insertAssoc : List (String × JsonValue) → String → JsonValue → List (String × JsonValue)
  | [], key, v => [(key, v)]
  | (k, w) :: rest, key, v =>
    if k = key then (k, v) :: rest else (k, w) :: insertAssoc rest key v

def dictLookup : JsonValue → String → Option JsonValue
  | .obj entries, key => lookupEntries entries key
  | _, _ => none

/-- A freshly initialized summary dict:
`{"type": t, "keys": None, "element_summary": None, "element_types": None, "is_empty": False}`. -/
def baseSummary (t : String) : JsonValue :=
  .obj [("type", .str t), ("keys", .null), ("element_summary", .null),
        ("element_types", .null), ("is_empty", .bool false)]

/-- Reading `item_summary["type"]` from a summary dict. -/
def summaryType (s : JsonValue) : String :=
  match dictLookup s "type" with
  | some (.str t) => t
  | _ => ""

/-- The summary dict returned for an object node, with its `keys`
mapping filled in and `is_empty` set. -/
def objSummary (entries : List (String × JsonValue)) (ks : List (String × JsonValue)) : JsonValue :=
  .obj [("type", .str "object"), ("keys", .obj ks), ("element_summary", .null),
        ("element_types", .null), ("is_empty", .bool entries.isEmpty)]

/-- The summary dict returned for an array node: `element_types` is
`sorted(list(set(...)))` of the element type tags, and
`element_summary` is the representative-summary computation of
`_analyze_recursive`'s array branch. -/
def arrSummary (elems : List JsonValue) (element_summaries : List JsonValue) : JsonValue :=
  let element_types := element_summaries.map summaryType
  let unique_types := sortStrings element_types.dedup
  let element_summary : JsonValue :=
    match element_summaries with
    | [] => .null
    | first_summary :: _ =>
      if unique_types.length = 1 then
        if element_summaries.all (fun s => beqV s first_summary) then first_summary
        else baseSummary (unique_types.headD "")
      else .null
  .obj [("type", .str "array"), ("keys", .null), ("element_summary", element_summary),
        ("element_types", .arr (unique_types.map JsonValue.str)),
        ("is_empty", .bool elems.isEmpty)]

/-- Step 1 of the walk at every visited node: count it in
`total_values` and update the max-depth tracker. -/
def visit (st : WalkState) (current_depth : Nat) : WalkState :=
  { st with
    stats := { st.stats with total_values := st.stats.total_values + 1 },
    maxDepth := max st.maxDepth current_depth }

/-! ### The recursive structural walk, `_analyze_recursive`.

The fuel parameter models Python's recursion limit: each nested call
consumes one unit, and an exhausted budget raises `RecursionError`,
the only exception the walk can produce on a finite tree. -/

/-- One recursive child call of the walk, with path, state and result. -/
abbrev ChildCall := JsonValue → String → WalkState → Except String (JsonValue × WalkState)

/-- The `for key, value in obj_node.items()` loop of `_analyze_recursive`:
duplicate keys are detected against the `seen_keys` set of this object
only, and each child summary is stored with `summary["keys"][key] = ...`.
`recur` is the recursive call on a child value (already carrying the
child's fuel and depth). -/
def analyzeObjectEntries (recur : ChildCall) (current_path : String) :
    List (String × JsonValue) → List String → List (String × JsonValue) → WalkState →
    Except String (List (String × JsonValue) × WalkState)
  | [], _, acc, st => .ok (acc, st)
  | (key, value) :: rest, seen_keys, acc, st =>
    let step : List String × WalkState :=
      if key ∈ seen_keys then
        (seen_keys, { st with duplicates := st.duplicates ++ [⟨current_path, key⟩] })
      else
        (key :: seen_keys, st)
    let child_path := if current_path = "" then key else current_path ++ "." ++ key
    match recur value child_path step.2 with
    | .error e => .error e
    | .ok (child_summary, st') =>
      analyzeObjectEntries recur current_path rest step.1
        (insertAssoc acc key child_summary) st'

/-- The `for i, item in enumerate(arr_node)` loop of `_analyze_recursive`,
collecting each element's summary in order. -/
def analyzeArrayElems (recur : ChildCall) (current_path : String) :
    List JsonValue → Nat → WalkState → Except String (List JsonValue × WalkState)
  | [], _, st => .ok ([], st)
  | item :: rest, i, st =>
    let child_path := current_path ++ "[" ++ toString i ++ "]"
    match recur item child_path st with
    | .error e => .error e
    | .ok (item_summary, st') =>
      match analyzeArrayElems recur current_path rest (i + 1) st' with
      | .error e => .error e
      | .ok (rest_summaries, st'') => .ok (item_summary :: rest_summaries, st'')

/-- `_analyze_recursive`.  The fuel parameter models Python's recursion
limit: each nested call consumes one unit, and an exhausted budget
raises `RecursionError`, the only exception the walk can produce on a
finite tree. -/
def analyze_recursive : Nat → JsonValue → String → Nat → WalkState →
    Except String (JsonValue × WalkState)
  | 0, _, _, _, _ => .error "RecursionError: maximum recursion depth exceeded"
  | Nat.succ fuel, node, current_path, current_depth, st =>
    let st1 := visit st current_depth
    match node with
    | .obj entries =>
      let st2 := { st1 with stats := { st1.stats with objects := st1.stats.objects + 1 } }
      match analyzeObjectEntries
          (fun v p s => analyze_recursive fuel v p (current_depth + 1) s)
          current_path entries [] [] st2 with
      | .error e => .error e
      | .ok (ks, st') => .ok (objSummary entries ks, st')
    | .arr elems =>
      let st2 := { st1 with stats := { st1.stats with arrays := st1.stats.arrays + 1 } }
      match analyzeArrayElems
          (fun v p s => analyze_recursive fuel v p (current_depth + 1) s)
          current_path elems 0 st2 with
      | .error e => .error e
      | .ok (element_summaries, st') => .ok (arrSummary elems element_summaries, st')
    | .str _ =>
      .ok (baseSummary "string", { st1 with stats := { st1.stats with strings := st1.stats.strings + 1 } })
    | .num _ =>
      .ok (baseSummary "number", { st1 with stats := { st1.stats with numbers := st1.stats.numbers + 1 } })
    | .bool _ =>
      .ok (baseSummary "boolean", { st1 with stats := { st1.stats with booleans := st1.stats.booleans + 1 } })
    | .null =>
      .ok (baseSummary "null", { st1 with stats := { st1.stats with nulls := st1.stats.nulls + 1 } })
    | .unknown =>
      .ok (baseSummary "unknown", st1)

/-! ### The analyzer entry point, `JsonAnalyzer.analyze` -/

structure JsonAnalysisResult where
  filepath : Option String
  analysis_error : Option String
  file_size_bytes : Option Nat
  root_type : Option String
  max_depth : Option Nat
  statistics : Option TypeStatistics
  structure' : Option JsonValue
  duplicate_keys : List DuplicateKeyInfo
deriving Repr

/-- `self.results` as set up by `JsonAnalyzer.__init__`. -/
def initial_results : JsonAnalysisResult :=
  { filepath := none, analysis_error := none, file_size_bytes := none,
    root_type := none, max_depth := some 0, statistics := none,
    structure' := none, duplicate_keys := [] }

/-- The statistics counters as initialized at the start of `analyze`. -/
def initial_stats : TypeStatistics :=
  { strings := 0, numbers := 0, booleans := 0, nulls := 0,
    objects := 0, arrays := 0, total_values := 0 }

def initialWalkState : WalkState :=
  { stats := initial_stats, duplicates := [], maxDepth := 0 }

/-- `JsonAnalyzer.analyze`: records the root type, runs the recursive
walk from path `"root"` at depth 0, and either attaches the four
analytical outputs or, if the walk raised, stores the error message
and resets the analytical fields. -/
def JsonAnalyzer.analyze (fuel : Nat) (parsed_data : JsonValue) : JsonAnalysisResult :=
  let results := { initial_results with root_type := some (get_value_type parsed_data) }
  match analyze_recursive fuel parsed_data "root" 0 initialWalkState with
  | .ok (summary, st) =>
    { results with
      structure' := some summary
      statistics := some st.stats
      max_depth := some st.maxDepth
      duplicate_keys := st.duplicates }
  | .error e =>
    { results with
      analysis_error := some ("Unexpected Analysis Error: Failed processing JSON data. Error: " ++ e)
      structure' := none
      statistics := none
      max_depth := none
      duplicate_keys := [] }

/-! ### Specification-side reference functions.

These restate, directly on the tree, the quantities the spec talks
about: number of nodes, number of `unknown` nodes, longest
root-to-leaf path, per-object duplicate keys, and the pure structure
summary.  They are compared with the walk's output by the theorems
below. -/

mutual
/-- Number of nodes of a JSON tree (leaves plus containers, root included). -/
def countNodesSpec : JsonValue → Nat
  | .obj entries => 1 + countNodesEntries entries
  | .arr elems => 1 + countNodesElems elems
  | _ => 1

def countNodesEntries : List (String × JsonValue) → Nat
  | [] => 0
  | (_, value) :: rest => countNodesSpec value + countNodesEntries rest

def countNodesElems : List JsonValue → Nat
  | [] => 0
  | item :: rest => countNodesSpec item + countNodesElems rest
end

mutual
/-- Number of nodes classified `unknown` (values outside the JSON space). -/
def countUnknownSpec : JsonValue → Nat
  | .obj entries => countUnknownEntries entries
  | .arr elems => countUnknownElems elems
  | .unknown => 1
  | _ => 0

def countUnknownEntries : List (String × JsonValue) → Nat
  | [] => 0
  | (_, value) :: rest => countUnknownSpec value + countUnknownEntries rest

def countUnknownElems : List JsonValue → Nat
  | [] => 0
  | item :: rest => countUnknownSpec item + countUnknownElems rest
end

mutual
/-- Length of the longest root-to-leaf path, the root counting as depth 0.
An empty container is itself a leaf of the path. -/
def heightSpec : JsonValue → Nat
  | .obj entries => heightEntries entries
  | .arr elems => heightElems elems
  | _ => 0

def heightEntries : List (String × JsonValue) → Nat
  | [] => 0
  | (_, value) :: rest => max (1 + heightSpec value) (heightEntries rest)

def heightElems : List JsonValue → Nat
  | [] => 0
  | item :: rest => max (1 + heightSpec item) (heightElems rest)
end

/-- Deepest depth reached below an object's entries, when the entries
themselves sit at `child_depth`; 0 when there are no entries. -/
def depthMaxEntries (child_depth : Nat) : List (String × JsonValue) → Nat
  | [] => 0
  | (_, value) :: rest =>
    max (child_depth + heightSpec value) (depthMaxEntries child_depth rest)

/-- Deepest depth reached below an array's elements. -/
def depthMaxElems (child_depth : Nat) : List JsonValue → Nat
  | [] => 0
  | item :: rest =>
    max (child_depth + heightSpec item) (depthMaxElems child_depth rest)

mutual
/-- The duplicate-key records of a tree, computed per object with a
fresh `seen` set for each object, in walk order. -/
def dupsSpec : JsonValue → String → List DuplicateKeyInfo
  | .obj entries, current_path => dupsEntries entries current_path []
  | .arr elems, current_path => dupsElems elems current_path 0
  | _, _ => []

def dupsEntries : List (String × JsonValue) → String → List String → List DuplicateKeyInfo
  | [], _, _ => []
  | (key, value) :: rest, current_path, seen =>
    let child_path := if current_path = "" then key else current_path ++ "." ++ key
    if key ∈ seen then
      ⟨current_path, key⟩ :: (dupsSpec value child_path ++ dupsEntries rest current_path seen)
    else
      dupsSpec value child_path ++ dupsEntries rest current_path (key :: seen)

def dupsElems : List JsonValue → String → Nat → List DuplicateKeyInfo
  | [], _, _ => []
  | item :: rest, current_path, i =>
    dupsSpec item (current_path ++ "[" ++ toString i ++ "]") ++ dupsElems rest current_path (i + 1)
end

mutual
/-- The structure summary of a node as a pure function of the tree:
the summary component of the walk, detached from the accumulators. -/
def summarize : JsonValue → JsonValue
  | .obj entries => objSummary entries (summarizeEntries entries [])
  | .arr elems => arrSummary elems (summarizeElems elems)
  | .str _ => baseSummary "string"
  | .num _ => baseSummary "number"
  | .bool _ => baseSummary "boolean"
  | .null => baseSummary "null"
  | .unknown => baseSummary "unknown"

def summarizeEntries : List (String × JsonValue) → List (String × JsonValue) →
    List (String × JsonValue)
  | [], acc => acc
  | (key, value) :: rest, acc => summarizeEntries rest (insertAssoc acc key (summarize value))

def summarizeElems : List JsonValue → List JsonValue
  | [] => []
  | item :: rest => summarize item :: summarizeElems rest
end

/-! ### Report generation, `report.py` -/

/-- Python tuple comparison `(a.path, a.key) < (b.path, b.key)`. -/
def dupPairLtB (a b : DuplicateKeyInfo) : Bool :=
  strLtB a.path b.path || (a.path == b.path && strLtB a.key b.key)

def dupPairLeB (a b : DuplicateKeyInfo) : Bool := !(dupPairLtB b a)

def sortedInsertDup (a : DuplicateKeyInfo) :
    List DuplicateKeyInfo → List DuplicateKeyInfo
  | [] => [a]
  | b :: l => if dupPairLeB a b then a :: b :: l else b :: sortedInsertDup a l

/-- `sorted(duplicates, key=lambda d: (d.get('path',''), d.get('key','')))`. -/
def sortDups : List DuplicateKeyInfo → List DuplicateKeyInfo
  | [] => []
  | x :: xs => sortedInsertDup x (sortDups xs)

/-- The statistics dict, keys in the insertion order of `analyze`. -/
def statsToValue (s : TypeStatistics) : JsonValue :=
  .obj [("strings", .num (s.strings : Int)), ("numbers", .num (s.numbers : Int)),
        ("booleans", .num (s.booleans : Int)), ("nulls", .num (s.nulls : Int)),
        ("objects", .num (s.objects : Int)), ("arrays", .num (s.arrays : Int)),
        ("total_values", .num (s.total_values : Int))]

def dupToValue (d : DuplicateKeyInfo) : JsonValue :=
  .obj [("path", .str d.path), ("key", .str d.key)]

def optStrToValue : Option String → JsonValue
  | none => .null
  | some s => .str s

def optNatToValue : Option Nat → JsonValue
  | none => .null
  | some n => .num (n : Int)

/-- `analyzer.results` as the Python dict handed to the report layer,
keys in the insertion order of `JsonAnalyzer.__init__`. -/
def resultEntries (r : JsonAnalysisResult) : List (String × JsonValue) :=
  [("filepath", optStrToValue r.filepath),
   ("analysis_error", optStrToValue r.analysis_error),
   ("file_size_bytes", optNatToValue r.file_size_bytes),
   ("root_type", optStrToValue r.root_type),
   ("max_depth", optNatToValue r.max_depth),
   ("statistics", match r.statistics with
                  | none => .null
                  | some s => statsToValue s),
   ("structure", match r.structure' with
                 | none => .null
                 | some s => s),
   ("duplicate_keys", .arr (r.duplicate_keys.map dupToValue))]

def resultToValue (r : JsonAnalysisResult) : JsonValue := .obj (resultEntries r)

def containsKeyEntries (entries : List (String × JsonValue)) (key : String) : Bool :=
  entries.any (fun e => e.1 == key)

mutual
/-- `_clean_none_values_report`: recursively removes keys with `None`
values from dictionaries; keeps `None` values inside lists; re-adds
`"duplicate_keys": []` when the key was present but got cleaned away. -/
def clean_none_values_report : JsonValue → JsonValue
  | .obj entries =>
    let cleaned_dict := cleanEntries entries
    if containsKeyEntries entries "duplicate_keys" &&
        !(containsKeyEntries cleaned_dict "duplicate_keys") then
      .obj (cleaned_dict ++ [("duplicate_keys", .arr [])])
    else
      .obj cleaned_dict
  | .arr elems => .arr (cleanElems elems)
  | item => item

def cleanEntries : List (String × JsonValue) → List (String × JsonValue)
  | [] => []
  | (k, v) :: rest =>
    match v with
    | .null => cleanEntries rest
    | .str s => (k, clean_none_values_report (.str s)) :: cleanEntries rest
    | .num n => (k, clean_none_values_report (.num n)) :: cleanEntries rest
    | .bool b => (k, clean_none_values_report (.bool b)) :: cleanEntries rest
    | .obj es => (k, clean_none_values_report (.obj es)) :: cleanEntries rest
    | .arr es => (k, clean_none_values_report (.arr es)) :: cleanEntries rest
    | .unknown => (k, clean_none_values_report .unknown) :: cleanEntries rest

def cleanElems : List JsonValue → List JsonValue
  | [] => []
  | item :: rest => clean_none_values_report item :: cleanElems rest
end

def containsKeyJ : JsonValue → String → Bool
  | .obj entries, key => containsKeyEntries entries key
  | _, _ => false

def dictSetJ : JsonValue → String → JsonValue → JsonValue
  | .obj entries, key, v => .obj (insertAssoc entries key v)
  | other, _, _ => other

/-- Python truthiness of an optional string (`None` and `""` are falsy). -/
def truthyStr : Option String → Bool
  | none => false
  | some s => !(s == "")

/-- `generate_json_report`: copies the results, sorts a non-empty
duplicates list by `(path, key)`, cleans `None` values recursively and
re-adds `filepath`/`analysis_error` when truthy but cleaned away.
The surrounding `try/except` cannot fire here: every step is total. -/
def generate_json_report (r : JsonAnalysisResult) : JsonValue :=
  let report_data :=
    if r.duplicate_keys.isEmpty then r
    else { r with duplicate_keys := sortDups r.duplicate_keys }
  let cleaned_report := clean_none_values_report (resultToValue report_data)
  let cleaned_report :=
    if !(containsKeyJ cleaned_report "filepath") && truthyStr report_data.filepath then
      dictSetJ cleaned_report "filepath" (optStrToValue report_data.filepath)
    else cleaned_report
  let cleaned_report :=
    if truthyStr report_data.analysis_error &&
        !(containsKeyJ cleaned_report "analysis_error") then
      dictSetJ cleaned_report "analysis_error" (optStrToValue report_data.analysis_error)
    else cleaned_report
  cleaned_report

mutual
/-- No object anywhere in the value has an entry whose value is null
(null elements of arrays are allowed). -/
def noNullEntriesV : JsonValue → Bool
  | .obj entries => entriesNoNull entries
  | .arr elems => elemsNoNull elems
  | _ => true

def entriesNoNull : List (String × JsonValue) → Bool
  | [] => true
  | (_, v) :: rest =>
    (match v with
     | .null => false
     | _ => true) && noNullEntriesV v && entriesNoNull rest

def elemsNoNull : List JsonValue → Bool
  | [] => true
  | item :: rest => noNullEntriesV item && elemsNoNull rest
end

/-- The §8 scenario input `{"id":1,"id":2,"tags":["x","y"],"meta":null}`. -/
def c1input : JsonValue :=
  .obj [("id", .num 1), ("id", .num 2),
        ("tags", .arr [.str "x", .str "y"]), ("meta", .null)]

/-- The per-object duplicate scoping input `{"a":{"x":1,"x":2},"b":{"x":3,"x":4}}`. -/
def c2input : JsonValue :=
  .obj [("a", .obj [("x", .num 1), ("x", .num 2)]),
        ("b", .obj [("x", .num 3), ("x", .num 4)])]

/-- A concrete analyzer result used to witness the report claims. -/
def c7result : JsonAnalysisResult :=
  { filepath := none, analysis_error := none, file_size_bytes := none,
    root_type := some "object", max_depth := some 1,
    statistics := some ⟨0, 2, 0, 0, 1, 0, 3⟩, structure' := none,
    duplicate_keys := [⟨"root.b", "x"⟩, ⟨"root.a", "y"⟩] }

/-- The sorted deduplicated element type tags of an array's elements,
`sorted(list(set(element_types)))`. -/
def uniqueTypesOf (elems : List JsonValue) : List String :=
  sortStrings ((summarizeElems elems).map summaryType).dedup

/-! ### Correctness of the recursive walk against the reference functions -/

/-- What one successful call of the walk does to the accumulators:
`total_values` grows by the node count, the six named counters grow by
the count of non-`unknown` nodes, the max-depth tracker takes in the
subtree's deepest depth, the per-object duplicate records are appended
in walk order, and the returned summary is the pure summary of the node. -/
def WalkOutSpec (node : JsonValue) (current_path : String) (current_depth : Nat)
    (st : WalkState) (out : JsonValue × WalkState) : Prop :=
  out.2.stats.total_values = st.stats.total_values + countNodesSpec node
  ∧ sumSix out.2.stats + countUnknownSpec node = sumSix st.stats + countNodesSpec node
  ∧ out.2.maxDepth = max st.maxDepth (current_depth + heightSpec node)
  ∧ out.2.duplicates = st.duplicates ++ dupsSpec node current_path
  ∧ out.1 = summarize node

theorem max_depthMaxEntries (d : Nat) :
    ∀ entries, max d (depthMaxEntries (d + 1) entries) = d + heightEntries entries
  | [] => by simp [depthMaxEntries, heightEntries]
  | (k, v) :: rest => by
    have ih := max_depthMaxEntries d rest
    simp only [depthMaxEntries, heightEntries]
    omega

theorem max_depthMaxElems (d : Nat) :
    ∀ elems, max d (depthMaxElems (d + 1) elems) = d + heightElems elems
  | [] => by simp [depthMaxElems, heightElems]
  | v :: rest => by
    have ih := max_depthMaxElems d rest
    simp only [depthMaxElems, heightElems]
    omega

theorem analyzeObjectEntries_ok (recur : ChildCall) (D : Nat) (current_path : String)
    (hrec : ∀ v p st out, recur v p st = .ok out → WalkOutSpec v p D st out) :
    ∀ entries seen_keys acc st ks st',
      analyzeObjectEntries recur current_path entries seen_keys acc st = .ok (ks, st') →
      st'.stats.total_values = st.stats.total_values + countNodesEntries entries
      ∧ sumSix st'.stats + countUnknownEntries entries
          = sumSix st.stats + countNodesEntries entries
      ∧ st'.maxDepth = max st.maxDepth (depthMaxEntries D entries)
      ∧ st'.duplicates = st.duplicates ++ dupsEntries entries current_path seen_keys
      ∧ ks = summarizeEntries entries acc := by
  intro entries
  induction entries with
  | nil =>
    intro seen_keys acc st ks st' h
    simp only [analyzeObjectEntries, Except.ok.injEq, Prod.mk.injEq] at h
    obtain ⟨hks, hst⟩ := h
    subst hks; subst hst
    simp [countNodesEntries, countUnknownEntries, depthMaxEntries, dupsEntries,
      summarizeEntries]
  | cons head rest ih =>
    obtain ⟨key, value⟩ := head
    intro seen_keys acc st ks st' h
    by_cases hk : key ∈ seen_keys
    · simp only [analyzeObjectEntries, if_pos hk] at h
      split at h
      · exact absurd h (by simp)
      · rename_i out1 child_summary st1 heq
        have hcs := hrec _ _ _ _ heq
        have hrest := ih seen_keys (insertAssoc acc key child_summary) st1 ks st' h
        obtain ⟨c1, c2, c3, c4, c5⟩ := hcs
        obtain ⟨r1, r2, r3, r4, r5⟩ := hrest
        dsimp only at c1 c2 c3 c4
        subst c5
        refine ⟨?_, ?_, ?_, ?_, ?_⟩
        · simp only [countNodesEntries]; omega
        · simp only [countNodesEntries, countUnknownEntries]; omega
        · simp only [depthMaxEntries]; omega
        · rw [r4, c4]
          simp [dupsEntries, if_pos hk, List.append_assoc]
        · rw [r5]; simp [summarizeEntries]
    · simp only [analyzeObjectEntries, if_neg hk] at h
      split at h
      · exact absurd h (by simp)
      · rename_i out1 child_summary st1 heq
        have hcs := hrec _ _ _ _ heq
        have hrest := ih (key :: seen_keys) (insertAssoc acc key child_summary) st1 ks st' h
        obtain ⟨c1, c2, c3, c4, c5⟩ := hcs
        obtain ⟨r1, r2, r3, r4, r5⟩ := hrest
        dsimp only at c1 c2 c3 c4
        subst c5
        refine ⟨?_, ?_, ?_, ?_, ?_⟩
        · simp only [countNodesEntries]; omega
        · simp only [countNodesEntries, countUnknownEntries]; omega
        · simp only [depthMaxEntries]; omega
        · rw [r4, c4]
          simp [dupsEntries, if_neg hk, List.append_assoc]
        · rw [r5]; simp [summarizeEntries]

theorem analyzeArrayElems_ok (recur : ChildCall) (D : Nat) (current_path : String)
    (hrec : ∀ v p st out, recur v p st = .ok out → WalkOutSpec v p D st out) :
    ∀ elems i st summaries st',
      analyzeArrayElems recur current_path elems i st = .ok (summaries, st') →
      st'.stats.total_values = st.stats.total_values + countNodesElems elems
      ∧ sumSix st'.stats + countUnknownElems elems
          = sumSix st.stats + countNodesElems elems
      ∧ st'.maxDepth = max st.maxDepth (depthMaxElems D elems)
      ∧ st'.duplicates = st.duplicates ++ dupsElems elems current_path i
      ∧ summaries = summarizeElems elems := by
  intro elems
  induction elems with
  | nil =>
    intro i st summaries st' h
    simp only [analyzeArrayElems, Except.ok.injEq, Prod.mk.injEq] at h
    obtain ⟨hs, hst⟩ := h
    subst hs; subst hst
    simp [countNodesElems, countUnknownElems, depthMaxElems, dupsElems, summarizeElems]
  | cons item rest ih =>
    intro i st summaries st' h
    simp only [analyzeArrayElems] at h
    split at h
    · exact absurd h (by simp)
    · rename_i out1 item_summary st1 heq
      split at h
      · exact absurd h (by simp)
      · rename_i out2 rest_summaries st2 heq2
        simp only [Except.ok.injEq, Prod.mk.injEq] at h
        obtain ⟨hs, hst⟩ := h
        subst hs; subst hst
        have hcs := hrec _ _ _ _ heq
        have hrest := ih (i + 1) st1 rest_summaries st2 heq2
        obtain ⟨c1, c2, c3, c4, c5⟩ := hcs
        obtain ⟨r1, r2, r3, r4, r5⟩ := hrest
        dsimp only at c1 c2 c3 c4
        subst c5
        refine ⟨?_, ?_, ?_, ?_, ?_⟩
        · simp only [countNodesElems]; omega
        · simp only [countNodesElems, countUnknownElems]; omega
        · simp only [depthMaxElems]; omega
        · rw [r4, c4]
          simp [dupsElems, List.append_assoc]
        · rw [r5]; simp [summarizeElems]

/-- One successful call of `_analyze_recursive` satisfies `WalkOutSpec`:
the single pass simultaneously produces the node count in
`total_values`, the non-`unknown` count in the six named counters, the
subtree height in the max-depth tracker, the per-object duplicate
records and the pure structure summary. -/
theorem analyze_recursive_ok :
    ∀ (fuel : Nat) (node : JsonValue) (current_path : String) (current_depth : Nat)
      (st : WalkState) (out : JsonValue × WalkState),
      analyze_recursive fuel node current_path current_depth st = .ok out →
      WalkOutSpec node current_path current_depth st out := by
  intro fuel
  induction fuel with
  | zero =>
    intro node p d st out h
    exact absurd h (by simp [analyze_recursive])
  | succ fuel ih =>
    intro node p d st out h
    have hrec : ∀ v p' st' out', analyze_recursive fuel v p' (d + 1) st' = .ok out' →
        WalkOutSpec v p' (d + 1) st' out' := fun v p' st' out' hc => ih v p' (d + 1) st' out' hc
    cases node with
    | obj entries =>
      simp only [analyze_recursive] at h
      split at h
      · exact absurd h (by simp)
      · rename_i out1 ks st' heq
        simp only [Except.ok.injEq] at h
        subst h
        have hl := analyzeObjectEntries_ok _ (d + 1) p hrec entries [] [] _ ks st' heq
        obtain ⟨r1, r2, r3, r4, r5⟩ := hl
        dsimp only [visit] at r1 r2 r3 r4
        refine ⟨?_, ?_, ?_, ?_, ?_⟩
        · simp only [countNodesSpec]; omega
        · simp only [countNodesSpec, countUnknownSpec, sumSix] at *; omega
        · dsimp
          rw [r3]
          have := max_depthMaxEntries d entries
          simp only [heightSpec]
          omega
        · dsimp
          rw [r4]
          simp [dupsSpec]
        · dsimp
          rw [r5]
          simp [summarize]
    | arr elems =>
      simp only [analyze_recursive] at h
      split at h
      · exact absurd h (by simp)
      · rename_i out1 element_summaries st' heq
        simp only [Except.ok.injEq] at h
        subst h
        have hl := analyzeArrayElems_ok _ (d + 1) p hrec elems 0 _ element_summaries st' heq
        obtain ⟨r1, r2, r3, r4, r5⟩ := hl
        dsimp only [visit] at r1 r2 r3 r4
        refine ⟨?_, ?_, ?_, ?_, ?_⟩
        · simp only [countNodesSpec]; omega
        · simp only [countNodesSpec, countUnknownSpec, sumSix] at *; omega
        · dsimp
          rw [r3]
          have := max_depthMaxElems d elems
          simp only [heightSpec]
          omega
        · dsimp
          rw [r4]
          simp [dupsSpec]
        · dsimp
          rw [r5]
          simp [summarize]
    | str s =>
      simp only [analyze_recursive, Except.ok.injEq] at h
      subst h
      refine ⟨?_, ?_, ?_, ?_, ?_⟩ <;>
        simp [WalkOutSpec, countNodesSpec, countUnknownSpec, heightSpec, dupsSpec,
          summarize, sumSix, visit] <;> omega
    | num n =>
      simp only [analyze_recursive, Except.ok.injEq] at h
      subst h
      refine ⟨?_, ?_, ?_, ?_, ?_⟩ <;>
        simp [WalkOutSpec, countNodesSpec, countUnknownSpec, heightSpec, dupsSpec,
          summarize, sumSix, visit] <;> omega
    | bool b =>
      simp only [analyze_recursive, Except.ok.injEq] at h
      subst h
      refine ⟨?_, ?_, ?_, ?_, ?_⟩ <;>
        simp [WalkOutSpec, countNodesSpec, countUnknownSpec, heightSpec, dupsSpec,
          summarize, sumSix, visit] <;> omega
    | null =>
      simp only [analyze_recursive, Except.ok.injEq] at h
      subst h
      refine ⟨?_, ?_, ?_, ?_, ?_⟩ <;>
        simp [WalkOutSpec, countNodesSpec, countUnknownSpec, heightSpec, dupsSpec,
          summarize, sumSix, visit] <;> omega
    | unknown =>
      simp only [analyze_recursive, Except.ok.injEq] at h
      subst h
      refine ⟨?_, ?_, ?_, ?_, ?_⟩ <;>
        simp [WalkOutSpec, countNodesSpec, countUnknownSpec, heightSpec, dupsSpec,
          summarize, sumSix, visit] <;> omega

/-! ### Claim theorems -/

/-- C1: for the input `{"id":1,"id":2,"tags":["x","y"],"meta":null}` one
call of the analyzer produces objects=1, arrays=1, numbers=2, strings=2,
nulls=1, total_values=7, max_depth=2 and the single duplicate record
`{path:"root", key:"id"}`. -/
theorem c1_scenario_statistics :
    (JsonAnalyzer.analyze 20 c1input).statistics =
      some { strings := 2, numbers := 2, booleans := 0, nulls := 1,
             objects := 1, arrays := 1, total_values := 7 }
    ∧ (JsonAnalyzer.analyze 20 c1input).max_depth = some 2
    ∧ (JsonAnalyzer.analyze 20 c1input).duplicate_keys = [⟨"root", "id"⟩] :=
  ⟨rfl, rfl, rfl⟩

/-- C2: duplicate detection is scoped to each single object: the
duplicates the analyzer reports are exactly `dupsSpec`, which restarts
the seen-key set afresh for every object (so a key seen in one object
never triggers a report in another), records a repeated key under the
containing object's path, and still recurses into the repeated key's
value.  On `{"a":{"x":1,"x":2},"b":{"x":3,"x":4}}` this yields exactly
the records at `root.a` and `root.b`, both with key `x`, and the
statistics count all four numbers, showing duplicate values recursed. -/
theorem c2_duplicates_scoped (fuel : Nat) (t : JsonValue)
    (h : (JsonAnalyzer.analyze fuel t).analysis_error = none) :
    (JsonAnalyzer.analyze fuel t).duplicate_keys = dupsSpec t "root"
    ∧ (JsonAnalyzer.analyze 20 c2input).duplicate_keys =
        [⟨"root.a", "x"⟩, ⟨"root.b", "x"⟩]
    ∧ (JsonAnalyzer.analyze 20 c2input).statistics =
        some { strings := 0, numbers := 4, booleans := 0, nulls := 0,
               objects := 3, arrays := 0, total_values := 7 } := by
  refine ⟨?_, rfl, rfl⟩
  unfold JsonAnalyzer.analyze at h ⊢
  cases hw : analyze_recursive fuel t "root" 0 initialWalkState with
  | error e => rw [hw] at h; exact absurd h (by simp)
  | ok out =>
    obtain ⟨summary, st⟩ := out
    have spec := analyze_recursive_ok fuel t "root" 0 initialWalkState (summary, st) hw
    obtain ⟨-, -, -, r4, -⟩ := spec
    simpa [initialWalkState] using r4

theorem c2_duplicates_scoped_witness :
    (JsonAnalyzer.analyze 20 c2input).analysis_error = none
    ∧ (JsonAnalyzer.analyze 20 c2input).duplicate_keys = dupsSpec c2input "root"
    ∧ dupsSpec c2input "root" = [⟨"root.a", "x"⟩, ⟨"root.b", "x"⟩] :=
  ⟨rfl, (c2_duplicates_scoped 20 c2input rfl).1, rfl⟩

/-- C3: after a successful run, `total_values` is the number of nodes of
the tree (leaves plus containers, root included); the six named
counters sum to the number of nodes not classified `unknown`, so the
sum equals `total_values` exactly when no `unknown` node occurs, while
each `unknown` node increments `total_values` only. -/
theorem c3_total_values_invariant (fuel : Nat) (t : JsonValue) (s : TypeStatistics)
    (h : (JsonAnalyzer.analyze fuel t).statistics = some s) :
    s.total_values = countNodesSpec t
    ∧ sumSix s + countUnknownSpec t = s.total_values
    ∧ (countUnknownSpec t = 0 → s.total_values = sumSix s) := by
  unfold JsonAnalyzer.analyze at h
  cases hw : analyze_recursive fuel t "root" 0 initialWalkState with
  | error e => rw [hw] at h; exact absurd h (by simp)
  | ok out =>
    rw [hw] at h
    simp only [Option.some.injEq] at h
    subst h
    have spec := analyze_recursive_ok fuel t "root" 0 initialWalkState out hw
    obtain ⟨r1, r2, -, -, -⟩ := spec
    simp only [initialWalkState, initial_stats, sumSix] at r1 r2
    refine ⟨by omega, by simp only [sumSix]; omega, ?_⟩
    intro h0
    simp only [sumSix]
    omega

theorem c3_total_values_invariant_witness :
    (JsonAnalyzer.analyze 20 c1input).statistics =
      some { strings := 2, numbers := 2, booleans := 0, nulls := 1,
             objects := 1, arrays := 1, total_values := 7 }
    ∧ (7 : Nat) = countNodesSpec c1input
    ∧ countUnknownSpec c1input = 0 := by
  refine ⟨rfl, ?_, rfl⟩
  exact (c3_total_values_invariant 20 c1input
    { strings := 2, numbers := 2, booleans := 0, nulls := 1,
      objects := 1, arrays := 1, total_values := 7 } rfl).1

/-- C5: after a successful analysis, `max_depth` is the length of the
longest root-to-leaf path of the tree, the root counting as depth 0. -/
theorem c5_max_depth_longest_path (fuel : Nat) (t : JsonValue)
    (h : (JsonAnalyzer.analyze fuel t).analysis_error = none) :
    (JsonAnalyzer.analyze fuel t).max_depth = some (heightSpec t) := by
  unfold JsonAnalyzer.analyze at h ⊢
  cases hw : analyze_recursive fuel t "root" 0 initialWalkState with
  | error e => rw [hw] at h; exact absurd h (by simp)
  | ok out =>
    obtain ⟨summary, st⟩ := out
    have spec := analyze_recursive_ok fuel t "root" 0 initialWalkState (summary, st) hw
    obtain ⟨-, -, r3, -, -⟩ := spec
    simp only [initialWalkState] at r3
    simp only [Option.some.injEq]
    omega

theorem c5_max_depth_longest_path_witness :
    (JsonAnalyzer.analyze 20 c1input).analysis_error = none
    ∧ (JsonAnalyzer.analyze 20 c1input).max_depth = some (heightSpec c1input)
    ∧ heightSpec c1input = 2 :=
  ⟨rfl, c5_max_depth_longest_path 20 c1input rfl, rfl⟩

/-- C6: if the recursive walk raises, the analysis fails atomically: the
result carries `analysis_error` populated, `structure`, `statistics`
and `max_depth` are `None` and `duplicate_keys` is empty. -/
theorem c6_error_atomic (fuel : Nat) (t : JsonValue) (e : String)
    (h : analyze_recursive fuel t "root" 0 initialWalkState = .error e) :
    (JsonAnalyzer.analyze fuel t).analysis_error =
      some ("Unexpected Analysis Error: Failed processing JSON data. Error: " ++ e)
    ∧ (JsonAnalyzer.analyze fuel t).structure' = none
    ∧ (JsonAnalyzer.analyze fuel t).statistics = none
    ∧ (JsonAnalyzer.analyze fuel t).max_depth = none
    ∧ (JsonAnalyzer.analyze fuel t).duplicate_keys = [] := by
  unfold JsonAnalyzer.analyze
  rw [h]
  exact ⟨rfl, rfl, rfl, rfl, rfl⟩

theorem c6_error_atomic_witness :
    analyze_recursive 0 JsonValue.null "root" 0 initialWalkState =
      .error "RecursionError: maximum recursion depth exceeded"
    ∧ (JsonAnalyzer.analyze 0 JsonValue.null).statistics = none
    ∧ (JsonAnalyzer.analyze 0 JsonValue.null).max_depth = none :=
  ⟨rfl, (c6_error_atomic 0 JsonValue.null _ rfl).2.2.1,
    (c6_error_atomic 0 JsonValue.null _ rfl).2.2.2.1⟩

/-- C8: the classifier returns exactly one of the seven tags for any
input; a boolean passes the `isinstance(value, (int, float))` test yet
is classified `"boolean"`, never `"number"`, because the boolean test
precedes the number test; a value outside the JSON value space yields
`"unknown"` rather than an error. -/
theorem c8_classifier_tags (v : JsonValue) (b : Bool) :
    (get_value_type v = "string" ∨ get_value_type v = "number"
      ∨ get_value_type v = "boolean" ∨ get_value_type v = "null"
      ∨ get_value_type v = "object" ∨ get_value_type v = "array"
      ∨ get_value_type v = "unknown")
    ∧ isinstance_int_float (JsonValue.bool b) = true
    ∧ get_value_type (JsonValue.bool b) = "boolean"
    ∧ get_value_type (JsonValue.bool b) ≠ "number"
    ∧ get_value_type JsonValue.unknown = "unknown" := by
  refine ⟨?_, rfl, rfl, show ("boolean" : String) ≠ "number" by decide, rfl⟩
  cases v <;> simp [get_value_type, isinstance_str, isinstance_bool,
    isinstance_int_float, isinstance_dict, isinstance_list, is_none_value]

/-- C10: the walk failing does not clear `root_type`: it is assigned
from the classifier before the walk starts and the error handler never
resets it, so an errored result still carries the root classification. -/
theorem c10_root_type_survives_error (fuel : Nat) (t : JsonValue)
    (h : (JsonAnalyzer.analyze fuel t).analysis_error.isSome = true) :
    (JsonAnalyzer.analyze fuel t).root_type = some (get_value_type t) := by
  unfold JsonAnalyzer.analyze
  split <;> rfl

theorem c10_root_type_survives_error_witness :
    (JsonAnalyzer.analyze 0 (JsonValue.bool true)).analysis_error.isSome = true
    ∧ (JsonAnalyzer.analyze 0 (JsonValue.bool true)).root_type = some "boolean" :=
  ⟨rfl, c10_root_type_survives_error 0 (JsonValue.bool true) rfl⟩

/-! ### Order facts about the code-point comparison -/

theorem listCharLtB_asymm : ∀ l1 l2, listCharLtB l1 l2 = true → listCharLtB l2 l1 = false
  | [], l2 => by cases l2 <;> simp [listCharLtB]
  | c :: cs, l2 => by
    cases l2 with
    | nil => simp [listCharLtB]
    | cons d ds =>
      intro h
      simp only [listCharLtB] at h ⊢
      split_ifs at h ⊢ with h1 h2 h3 h4 <;>
        first
          | rfl
          | omega
          | exact listCharLtB_asymm cs ds h
          | simp_all

theorem listCharLtB_trans :
    ∀ l1 l2 l3, listCharLtB l1 l2 = true → listCharLtB l2 l3 = true →
      listCharLtB l1 l3 = true
  | [], l2, l3 => by
    cases l2 <;> cases l3 <;> simp [listCharLtB]
  | c :: cs, l2, l3 => by
    cases l2 with
    | nil => simp [listCharLtB]
    | cons d ds =>
      cases l3 with
      | nil => simp [listCharLtB]
      | cons e es =>
        intro h1 h2
        simp only [listCharLtB] at h1 h2 ⊢
        split_ifs at h1 h2 ⊢ <;>
          first
            | rfl
            | omega
            | exact listCharLtB_trans cs ds es h1 h2
            | simp_all

theorem listCharLtB_connex :
    ∀ l1 l2, listCharLtB l1 l2 = false → listCharLtB l2 l1 = false → l1 = l2
  | [], l2 => by cases l2 <;> simp [listCharLtB]
  | c :: cs, l2 => by
    cases l2 with
    | nil => simp [listCharLtB]
    | cons d ds =>
      intro h1 h2
      simp only [listCharLtB] at h1 h2
      split_ifs at h1 h2 with ha hb <;> first | simp_all | skip
      have htn : c.toNat = d.toNat := by omega
      have hcd : c = d := Char.ext (UInt32.ext htn)
      have := listCharLtB_connex cs ds h1 h2
      simp [hcd, this]

theorem strLtB_asymm (a b : String) (h : strLtB a b = true) : strLtB b a = false :=
  listCharLtB_asymm _ _ h

theorem strLtB_connex (a b : String) (h1 : strLtB a b = false) (h2 : strLtB b a = false) :
    a = b := by
  apply String.ext
  exact listCharLtB_connex _ _ h1 h2

theorem strLeB_total (a b : String) : strLeB a b = true ∨ strLeB b a = true := by
  unfold strLeB
  cases hba : strLtB b a with
  | false => left; rfl
  | true => right; simp [strLtB_asymm b a hba]

theorem strLeB_trans (a b c : String)
    (h1 : strLeB a b = true) (h2 : strLeB b c = true) : strLeB a c = true := by
  unfold strLeB at *
  simp only [Bool.not_eq_true'] at h1 h2 ⊢
  cases hca : strLtB c a with
  | false => rfl
  | true =>
    cases hab : strLtB a b with
    | true =>
      have := listCharLtB_trans _ _ _ hca hab
      simp_all [strLtB]
    | false =>
      have hab' : a = b := strLtB_connex a b hab h1
      subst hab'
      simp_all

theorem strLtB_of_leB_of_ne (a b : String) (h : strLeB a b = true) (hne : a ≠ b) :
    strLtB a b = true := by
  unfold strLeB at h
  simp only [Bool.not_eq_true'] at h
  cases hab : strLtB a b with
  | true => rfl
  | false => exact absurd (strLtB_connex a b hab h) hne

instance : IsTotal String (fun a b => strLeB a b = true) := ⟨strLeB_total⟩

instance : IsTrans String (fun a b => strLeB a b = true) := ⟨strLeB_trans⟩

theorem sortStrings_perm (l : List String) : List.Perm (sortStrings l) l :=
  List.perm_insertionSort _ l

theorem sortStrings_sorted (l : List String) :
    List.Pairwise (fun a b => strLeB a b = true) (sortStrings l) :=
  List.sorted_insertionSort _ l

/-- On a duplicate-free input, the sort is strictly increasing. -/
theorem sortStrings_strict (l : List String) (hl : l.Nodup) :
    List.Pairwise (fun a b => strLtB a b = true) (sortStrings l) := by
  have hs := sortStrings_sorted l
  have hn : (sortStrings l).Nodup := (sortStrings_perm l).nodup_iff.mpr hl
  exact (hs.and hn).imp fun h => strLtB_of_leB_of_ne _ _ h.1 h.2

theorem summarizeElems_eq_map (elems : List JsonValue) :
    summarizeElems elems = elems.map summarize := by
  induction elems with
  | nil => rfl
  | cons e rest ih => simp [summarizeElems, ih]

theorem lookup_arrSummary_element_types (elems ss : List JsonValue) :
    dictLookup (arrSummary elems ss) "element_types" =
      some (.arr ((sortStrings (ss.map summaryType).dedup).map JsonValue.str)) := rfl

theorem lookup_arrSummary_is_empty (elems ss : List JsonValue) :
    dictLookup (arrSummary elems ss) "is_empty" = some (.bool elems.isEmpty) := rfl

theorem lookup_arrSummary_element_summary (elems ss : List JsonValue) :
    dictLookup (arrSummary elems ss) "element_summary" =
      some (match ss with
            | [] => JsonValue.null
            | first_summary :: _ =>
              if (sortStrings (ss.map summaryType).dedup).length = 1 then
                if ss.all (fun s => beqV s first_summary) then first_summary
                else baseSummary ((sortStrings (ss.map summaryType).dedup).headD "")
              else .null) := rfl

/-- C4 (amended): for every array node the walk returns, `element_types`
is the strictly sorted (hence duplicate-free) list of exactly the type
tags of the elements' summaries — for an empty array the *empty list*,
not an absent field — and `element_summary` is: absent (null) for an
empty array; the first element's summary when there is one unique type
and every element's summary is deep-equal to the first's (`beqV`,
Python's `==`, which ignores dict key order); the
degenerate summary carrying only that type tag with `is_empty = false`
when there is one unique type but summaries differ; and absent (null)
with more than one unique type. -/
theorem c4_array_element_summary (fuel : Nat) (elems : List JsonValue) (p : String)
    (d : Nat) (st : WalkState) (s : JsonValue) (st' : WalkState)
    (h : analyze_recursive fuel (.arr elems) p d st = .ok (s, st')) :
    dictLookup s "element_types" =
      some (.arr ((uniqueTypesOf elems).map JsonValue.str))
    ∧ List.Pairwise (fun a b => strLtB a b = true) (uniqueTypesOf elems)
    ∧ (∀ ty : String, ty ∈ uniqueTypesOf elems ↔
        ∃ e ∈ elems, summaryType (summarize e) = ty)
    ∧ dictLookup s "is_empty" = some (.bool elems.isEmpty)
    ∧ (elems = [] → dictLookup s "element_summary" = some .null)
    ∧ (∀ e0 erest, elems = e0 :: erest →
        ((uniqueTypesOf elems).length = 1 →
          ((∀ e ∈ elems, beqV (summarize e) (summarize e0) = true) →
            dictLookup s "element_summary" = some (summarize e0))
          ∧ ((¬ ∀ e ∈ elems, beqV (summarize e) (summarize e0) = true) →
            dictLookup s "element_summary" =
              some (baseSummary (summaryType (summarize e0)))))
        ∧ ((uniqueTypesOf elems).length ≠ 1 →
          dictLookup s "element_summary" = some .null)) := by
  have hs : s = arrSummary elems (summarizeElems elems) := by
    have spec := analyze_recursive_ok fuel _ p d st (s, st') h
    have h5 := spec.2.2.2.2
    simpa [summarize] using h5
  subst hs
  have hut : uniqueTypesOf elems
      = sortStrings ((summarizeElems elems).map summaryType).dedup := rfl
  refine ⟨?_, ?_, ?_, lookup_arrSummary_is_empty elems _, ?_, ?_⟩
  · rw [lookup_arrSummary_element_types, hut]
  · rw [hut]
    exact sortStrings_strict _ (List.nodup_dedup _)
  · intro ty
    rw [hut, (sortStrings_perm _).mem_iff, List.mem_dedup,
      summarizeElems_eq_map, List.map_map, List.mem_map]
    simp [Function.comp]
  · intro he
    subst he
    rfl
  · intro e0 erest he
    subst he
    have hform : dictLookup (arrSummary (e0 :: erest) (summarizeElems (e0 :: erest)))
        "element_summary" =
        some (if (sortStrings ((summarizeElems (e0 :: erest)).map summaryType).dedup).length
                  = 1 then
                (if (summarizeElems (e0 :: erest)).all
                    (fun s => beqV s (summarize e0)) then summarize e0
                 else baseSummary
                   ((sortStrings
                     ((summarizeElems (e0 :: erest)).map summaryType).dedup).headD ""))
              else .null) := rfl
    constructor
    · intro hlen
      rw [hut] at hlen
      constructor
      · intro hall
        have hallb : (summarizeElems (e0 :: erest)).all
            (fun s => beqV s (summarize e0)) = true := by
          rw [List.all_eq_true]
          intro u hu
          rw [summarizeElems_eq_map, List.mem_map] at hu
          obtain ⟨e, he, rfl⟩ := hu
          exact hall e he
        rw [hform, if_pos hlen, if_pos hallb]
      · intro hnall
        have hallb : (summarizeElems (e0 :: erest)).all
            (fun s => beqV s (summarize e0)) = false := by
          rw [Bool.eq_false_iff]
          intro hcon
          apply hnall
          intro e he
          rw [List.all_eq_true] at hcon
          exact hcon (summarize e) (by
            rw [summarizeElems_eq_map, List.mem_map]; exact ⟨e, he, rfl⟩)
        have hmem : summaryType (summarize e0) ∈
            sortStrings ((summarizeElems (e0 :: erest)).map summaryType).dedup := by
          rw [(sortStrings_perm _).mem_iff, List.mem_dedup, List.mem_map]
          refine ⟨summarize e0, ?_, rfl⟩
          rw [summarizeElems_eq_map, List.mem_map]
          exact ⟨e0, List.mem_cons_self _ _, rfl⟩
        obtain ⟨u, hu⟩ : ∃ u,
            sortStrings ((summarizeElems (e0 :: erest)).map summaryType).dedup = [u] := by
          cases hl : sortStrings ((summarizeElems (e0 :: erest)).map summaryType).dedup with
          | nil => rw [hl] at hlen; simp at hlen
          | cons u rest =>
            rw [hl] at hlen
            simp at hlen
            exact ⟨u, by rw [hlen]⟩
        have huty : u = summaryType (summarize e0) :=
          (List.mem_singleton.mp (hu ▸ hmem)).symm
        rw [hform, if_pos hlen, if_neg (by simp [hallb]), hu]
        simp [huty]
    · intro hlen
      rw [hut] at hlen
      rw [hform, if_neg hlen]

/-- C4 counterexample to the original claim: for the empty array the
analyzer sets `element_types` to the *empty list*, and the generated
report still carries `"element_types": []` inside the structure
summary — the field is present, not null/absent as claimed. -/
theorem c4_empty_array_element_types_present :
    (JsonAnalyzer.analyze 10 (JsonValue.arr [])).structure' =
      some (.obj [("type", .str "array"), ("keys", .null), ("element_summary", .null),
                  ("element_types", .arr []), ("is_empty", .bool true)])
    ∧ dictLookup (generate_json_report (JsonAnalyzer.analyze 10 (JsonValue.arr [])))
        "structure" =
      some (.obj [("type", .str "array"), ("element_types", .arr []),
                  ("is_empty", .bool true)])
    ∧ dictLookup (.obj [("type", .str "array"), ("element_types", .arr []),
        ("is_empty", .bool true)]) "element_types" = some (.arr [])
    ∧ some (JsonValue.arr []) ≠ (none : Option JsonValue) :=
  ⟨rfl, rfl, rfl, by simp⟩

theorem c4_array_element_summary_witness :
    dictLookup (summarize (JsonValue.arr [JsonValue.num 1, JsonValue.str "a"]))
      "element_types" = some (.arr [.str "number", .str "string"])
    ∧ dictLookup (summarize (JsonValue.arr [JsonValue.num 1, JsonValue.str "a"]))
      "element_summary" = some .null
    ∧ dictLookup (summarize (JsonValue.arr
        [JsonValue.obj [("a", JsonValue.num 1), ("b", JsonValue.num 2)],
         JsonValue.obj [("b", JsonValue.num 2), ("a", JsonValue.num 1)]]))
      "element_summary" =
      some (summarize (JsonValue.obj [("a", JsonValue.num 1), ("b", JsonValue.num 2)])) := by
  have h := c4_array_element_summary 10 [JsonValue.num 1, JsonValue.str "a"] "root" 0
    initialWalkState (summarize (JsonValue.arr [JsonValue.num 1, JsonValue.str "a"]))
    ⟨⟨1, 1, 0, 0, 0, 1, 3⟩, [], 1⟩ rfl
  have h2 := c4_array_element_summary 10
    [JsonValue.obj [("a", JsonValue.num 1), ("b", JsonValue.num 2)],
     JsonValue.obj [("b", JsonValue.num 2), ("a", JsonValue.num 1)]] "root" 0
    initialWalkState (summarize (JsonValue.arr
      [JsonValue.obj [("a", JsonValue.num 1), ("b", JsonValue.num 2)],
       JsonValue.obj [("b", JsonValue.num 2), ("a", JsonValue.num 1)]]))
    ⟨⟨0, 4, 0, 0, 2, 1, 7⟩, [], 2⟩ rfl
  refine ⟨h.1, ?_, ?_⟩
  · exact ((h.2.2.2.2.2 (JsonValue.num 1) [JsonValue.str "a"] rfl).2 (by decide))
  · exact ((h2.2.2.2.2.2 (JsonValue.obj [("a", JsonValue.num 1), ("b", JsonValue.num 2)])
      [JsonValue.obj [("b", JsonValue.num 2), ("a", JsonValue.num 1)]] rfl).1
      (by decide)).1 (by decide)

/-! ### Lookup lemmas for the report layer -/

theorem lookupEntries_insertAssoc_ne (k k' : String) (w : JsonValue) (h : k ≠ k') :
    ∀ entries, lookupEntries (insertAssoc entries k' w) k = lookupEntries entries k
  | [] => by
    simp only [insertAssoc, lookupEntries]
    rw [if_neg (fun hh => h hh.symm)]
  | (a, b) :: rest => by
    by_cases ha : a = k'
    · subst ha
      simp only [insertAssoc, if_pos rfl, lookupEntries]
      rw [if_neg (fun hh => h hh.symm), if_neg (fun hh => h hh.symm)]
    · simp only [insertAssoc, if_neg ha, lookupEntries]
      by_cases hak : a = k
      · rw [if_pos hak, if_pos hak]
      · rw [if_neg hak, if_neg hak]
        exact lookupEntries_insertAssoc_ne k k' w h rest

theorem dictLookup_dictSetJ_ne (v : JsonValue) (k k' : String) (w : JsonValue)
    (h : k ≠ k') : dictLookup (dictSetJ v k' w) k = dictLookup v k := by
  cases v <;> simp only [dictSetJ, dictLookup]
  exact lookupEntries_insertAssoc_ne k k' w h _

theorem lookupEntries_append_left (k : String) (w : JsonValue) (l2 : List (String × JsonValue)) :
    ∀ l1, lookupEntries l1 k = some w → lookupEntries (l1 ++ l2) k = some w
  | [], h => by simp [lookupEntries] at h
  | (a, b) :: rest, h => by
    simp only [lookupEntries, List.cons_append] at h ⊢
    by_cases hak : a = k
    · rwa [if_pos hak] at h ⊢
    · rw [if_neg hak] at h ⊢
      exact lookupEntries_append_left k w l2 rest h

theorem lookupEntries_cleanEntries (k : String) :
    ∀ entries v, lookupEntries entries k = some v → v ≠ .null →
      lookupEntries (cleanEntries entries) k = some (clean_none_values_report v)
  | [], v, h, _ => by simp [lookupEntries] at h
  | (a, b) :: rest, v, h, hv => by
    by_cases hak : a = k
    · rw [lookupEntries, if_pos hak] at h
      simp only [Option.some.injEq] at h
      subst h
      cases b <;>
        first
          | exact absurd rfl hv
          | (simp only [cleanEntries, lookupEntries]; rw [if_pos hak])
    · rw [lookupEntries, if_neg hak] at h
      cases b <;>
        simp only [cleanEntries] <;>
        first
          | exact lookupEntries_cleanEntries k rest v h hv
          | (rw [lookupEntries, if_neg hak]
             exact lookupEntries_cleanEntries k rest v h hv)

/-- Looking up a non-null entry through the recursive cleaner: the
entry survives with its value cleaned, whether or not the
`duplicate_keys` re-add fires. -/
theorem dictLookup_clean_obj (entries : List (String × JsonValue)) (k : String)
    (v : JsonValue) (hfind : lookupEntries entries k = some v) (hv : v ≠ .null) :
    dictLookup (clean_none_values_report (.obj entries)) k =
      some (clean_none_values_report v) := by
  have hc := lookupEntries_cleanEntries k entries v hfind hv
  rw [clean_none_values_report]
  split
  · exact lookupEntries_append_left k _ _ _ hc
  · exact hc

theorem lookup_resultEntries_duplicate_keys (r : JsonAnalysisResult) :
    lookupEntries (resultEntries r) "duplicate_keys" =
      some (.arr (r.duplicate_keys.map dupToValue)) := rfl

theorem clean_dupToValue (d : DuplicateKeyInfo) :
    clean_none_values_report (dupToValue d) = dupToValue d := rfl

theorem clean_arr_dups (l : List DuplicateKeyInfo) :
    clean_none_values_report (.arr (l.map dupToValue)) = .arr (l.map dupToValue) := by
  rw [clean_none_values_report]
  congr 1
  induction l with
  | nil => rfl
  | cons d rest ih => simp [cleanElems, clean_dupToValue, ih]

theorem clean_statsToValue (s : TypeStatistics) :
    clean_none_values_report (statsToValue s) = statsToValue s := rfl

/-- Lookups other than `filepath` and `analysis_error` see through the
two conditional re-add steps at the end of `generate_json_report`. -/
theorem dictLookup_ite_dictSetJ_ne (c : Prop) [Decidable c] (v w : JsonValue)
    (k k' : String) (h : k ≠ k') :
    dictLookup (if c then dictSetJ v k' w else v) k = dictLookup v k := by
  split
  · exact dictLookup_dictSetJ_ne v k k' w h
  · rfl

theorem generate_json_report_lookup (r : JsonAnalysisResult) (k : String)
    (h1 : k ≠ "filepath") (h2 : k ≠ "analysis_error") :
    dictLookup (generate_json_report r) k =
      dictLookup (clean_none_values_report (resultToValue
        (if r.duplicate_keys.isEmpty then r
         else { r with duplicate_keys := sortDups r.duplicate_keys }))) k := by
  simp only [generate_json_report]
  rw [dictLookup_ite_dictSetJ_ne _ _ _ _ _ h2, dictLookup_ite_dictSetJ_ne _ _ _ _ _ h1]

theorem notNullFlag (v : JsonValue) :
    v ≠ .null → (match v with | .null => false | _ => true) = true := by
  cases v <;> intro hv <;> first | rfl | exact absurd rfl hv

theorem clean_not_null : ∀ v : JsonValue, v ≠ .null → clean_none_values_report v ≠ .null := by
  intro v hv
  cases v with
  | null => exact absurd rfl hv
  | obj entries => rw [clean_none_values_report]; split <;> simp
  | arr elems => rw [clean_none_values_report]; simp
  | str s => simp [clean_none_values_report]
  | num n => simp [clean_none_values_report]
  | bool b => simp [clean_none_values_report]
  | unknown => simp [clean_none_values_report]

theorem entriesNoNull_append : ∀ l1 l2 : List (String × JsonValue),
    entriesNoNull (l1 ++ l2) = (entriesNoNull l1 && entriesNoNull l2)
  | [], l2 => by simp [entriesNoNull]
  | (k, v) :: rest, l2 => by
    simp only [List.cons_append, entriesNoNull]
    rw [show rest.append l2 = rest ++ l2 from rfl, entriesNoNull_append rest l2]
    simp [Bool.and_assoc]

mutual
theorem noNull_clean : ∀ v : JsonValue, noNullEntriesV (clean_none_values_report v) = true
  | .obj entries => by
    rw [clean_none_values_report]
    split
    · simp only [noNullEntriesV, entriesNoNull_append, noNull_cleanEntries entries,
        Bool.true_and]
      rfl
    · simp only [noNullEntriesV]
      exact noNull_cleanEntries entries
  | .arr elems => by
    rw [clean_none_values_report]
    simp only [noNullEntriesV]
    exact noNull_cleanElems elems
  | .str s => rfl
  | .num n => rfl
  | .bool b => rfl
  | .null => rfl
  | .unknown => rfl

theorem noNull_cleanEntries : ∀ entries : List (String × JsonValue),
    entriesNoNull (cleanEntries entries) = true
  | [] => rfl
  | (k, v) :: rest => by
    cases v with
    | null =>
      simp only [cleanEntries]
      exact noNull_cleanEntries rest
    | str s =>
      simp only [cleanEntries, entriesNoNull, Bool.and_eq_true]
      exact ⟨⟨notNullFlag _ (clean_not_null (.str s) (by simp)), noNull_clean (.str s)⟩,
        noNull_cleanEntries rest⟩
    | num n =>
      simp only [cleanEntries, entriesNoNull, Bool.and_eq_true]
      exact ⟨⟨notNullFlag _ (clean_not_null (.num n) (by simp)), noNull_clean (.num n)⟩,
        noNull_cleanEntries rest⟩
    | bool b =>
      simp only [cleanEntries, entriesNoNull, Bool.and_eq_true]
      exact ⟨⟨notNullFlag _ (clean_not_null (.bool b) (by simp)), noNull_clean (.bool b)⟩,
        noNull_cleanEntries rest⟩
    | obj es =>
      simp only [cleanEntries, entriesNoNull, Bool.and_eq_true]
      exact ⟨⟨notNullFlag _ (clean_not_null (.obj es) (by simp)), noNull_clean (.obj es)⟩,
        noNull_cleanEntries rest⟩
    | arr es =>
      simp only [cleanEntries, entriesNoNull, Bool.and_eq_true]
      exact ⟨⟨notNullFlag _ (clean_not_null (.arr es) (by simp)), noNull_clean (.arr es)⟩,
        noNull_cleanEntries rest⟩
    | unknown =>
      simp only [cleanEntries, entriesNoNull, Bool.and_eq_true]
      exact ⟨⟨notNullFlag _ (clean_not_null .unknown (by simp)), noNull_clean .unknown⟩,
        noNull_cleanEntries rest⟩

theorem noNull_cleanElems : ∀ elems : List JsonValue,
    elemsNoNull (cleanElems elems) = true
  | [] => rfl
  | v :: rest => by
    simp only [cleanElems, elemsNoNull, Bool.and_eq_true]
    exact ⟨noNull_clean v, noNull_cleanElems rest⟩
end

theorem cleanElems_eq_map : ∀ es : List JsonValue,
    cleanElems es = es.map clean_none_values_report
  | [] => rfl
  | v :: rest => by simp [cleanElems, cleanElems_eq_map rest]

theorem dictLookup_clean_resultToValue_dups (r : JsonAnalysisResult) :
    dictLookup (clean_none_values_report (resultToValue r)) "duplicate_keys" =
      some (.arr (r.duplicate_keys.map dupToValue)) := by
  have h := dictLookup_clean_obj (resultEntries r) "duplicate_keys"
    (.arr (r.duplicate_keys.map dupToValue))
    (lookup_resultEntries_duplicate_keys r) (by simp)
  rw [show resultToValue r = .obj (resultEntries r) from rfl, h, clean_arr_dups]

theorem dictLookup_clean_resultToValue_stats (r : JsonAnalysisResult)
    (s : TypeStatistics) (hs : r.statistics = some s) :
    dictLookup (clean_none_values_report (resultToValue r)) "statistics" =
      some (statsToValue s) := by
  have hfind : lookupEntries (resultEntries r) "statistics" = some (statsToValue s) := by
    simp [resultEntries, lookupEntries, hs]
  have h := dictLookup_clean_obj (resultEntries r) "statistics" (statsToValue s)
    hfind (by simp [statsToValue])
  rw [show resultToValue r = .obj (resultEntries r) from rfl, h, clean_statsToValue]

/-- C7: the report sorts a non-empty duplicates list by the pair
`(path, key)` — on the two records at `root.b` (key `x`) and `root.a`
(key `y`) the finalized order is `[(root.a, y), (root.b, x)]` — and
this finalization leaves the statistics exactly as the analyzer
produced them. -/
theorem c7_report_sorts_duplicates (r : JsonAnalysisResult) (s : TypeStatistics)
    (hd : r.duplicate_keys ≠ [])
    (hs : r.statistics = some s) :
    dictLookup (generate_json_report r) "duplicate_keys" =
      some (.arr ((sortDups r.duplicate_keys).map dupToValue))
    ∧ dictLookup (generate_json_report r) "statistics" = some (statsToValue s)
    ∧ sortDups [⟨"root.b", "x"⟩, ⟨"root.a", "y"⟩] = [⟨"root.a", "y"⟩, ⟨"root.b", "x"⟩] := by
  have hne : r.duplicate_keys.isEmpty = false := by
    cases hl : r.duplicate_keys with
    | nil => exact absurd hl hd
    | cons a l => rfl
  refine ⟨?_, ?_, rfl⟩
  · rw [generate_json_report_lookup r _ (by decide) (by decide), if_neg (by simp [hne])]
    exact dictLookup_clean_resultToValue_dups _
  · rw [generate_json_report_lookup r _ (by decide) (by decide), if_neg (by simp [hne])]
    exact dictLookup_clean_resultToValue_stats _ s hs

theorem c7_report_sorts_duplicates_witness :
    dictLookup (generate_json_report c7result) "duplicate_keys" =
      some (.arr [dupToValue ⟨"root.a", "y"⟩, dupToValue ⟨"root.b", "x"⟩])
    ∧ dictLookup (generate_json_report c7result) "statistics" =
      some (statsToValue ⟨0, 2, 0, 0, 1, 0, 3⟩) := by
  have h := c7_report_sorts_duplicates c7result ⟨0, 2, 0, 0, 1, 0, 3⟩ (by simp [c7result]) rfl
  exact ⟨h.1, h.2.1⟩

/-- C9 counterexample to the original claim: pruning is *recursive*,
not top-level only.  For the root string input the analyzer's summary
carries `keys`, `element_summary` and `element_types` as nulls, but the
generated report's structure summary has all three pruned away. -/
theorem c9_nested_nulls_pruned :
    (JsonAnalyzer.analyze 10 (.str "hello")).structure' =
      some (.obj [("type", .str "string"), ("keys", .null), ("element_summary", .null),
                  ("element_types", .null), ("is_empty", .bool false)])
    ∧ dictLookup (generate_json_report (JsonAnalyzer.analyze 10 (.str "hello")))
        "structure" =
      some (.obj [("type", .str "string"), ("is_empty", .bool false)])
    ∧ dictLookup (.obj [("type", .str "string"), ("is_empty", .bool false)]) "keys" = none
    ∧ dictLookup (.obj [("type", .str "string"), ("keys", .null), ("element_summary", .null),
        ("element_types", .null), ("is_empty", .bool false)]) "keys" = some .null :=
  ⟨rfl, rfl, rfl, rfl⟩

/-- C9 (amended): the cleaner removes null-valued dictionary fields at
*every* nesting level — no object anywhere in its output retains a null
entry — while lists pass through element by element, so null values
that are elements of lists are never removed. -/
theorem c9_clean_recursive_lists_kept (v : JsonValue) (es : List JsonValue) :
    noNullEntriesV (clean_none_values_report v) = true
    ∧ clean_none_values_report (.arr es) = .arr (es.map clean_none_values_report)
    ∧ (es.map clean_none_values_report).length = es.length
    ∧ clean_none_values_report .null = .null :=
  ⟨noNull_clean v,
   by rw [clean_none_values_report, cleanElems_eq_map],
   by simp,
   rfl⟩
